import Mathlib

/-!
Verification of the element-evaluation and caching subsystem of the igatools
isogeometric-analysis library, shallowly embedded from the C++ sources:

* flat/tensor index conversion (spec section 3/4.1, used by the grid and the
  dof distribution),
* the grid iterator `jump` and property-filtered sweep
  (`source/geometry/cartesian_grid_iterator.cpp`,
  `source/geometry/grid_forward_iterator.cpp`),
* the flag-activation tables (`source/base/value_types.cpp`),
* the per-element value cache and its copy semantics
  (`source/basis_functions/space_element.cpp`),
* the handler reset family
  (`source/basis_functions/reference_element_handler.cpp`).
-/

namespace Igatools

/-! ## Tensor/flat index conversion

Modelled from the spec: the bodies of `tensor_to_flat` / `flat_to_tensor`
(living in `TensorSizedContainer` / `DynamicMultiArray`, not under the
provided sources) are modelled from the spec's words: a bijective row-major
flattening with the last direction varying fastest, total for
`0 <= flat < prod(extents)`. -/

/-- Product of the extents of a structured grid, one entry per direction. -/
def listProd : List Nat → Nat
  | [] => 1
  | e :: es => e * listProd es

/-- Row-major flattening of a tensor index against the given extents
(last direction varies fastest). -/
def tensor_to_flat : List Nat → List Nat → Nat
  | _ :: es, t :: ts => t * listProd es + tensor_to_flat es ts
  | _, _ => 0

/-- Inverse of `tensor_to_flat`: unflatten a flat index into a tensor index. -/
def flat_to_tensor : List Nat → Nat → List Nat
  | [], _ => []
  | _ :: es, i => i / listProd es :: flat_to_tensor es (i % listProd es)

/-- A tensor index is valid for the given extents when it has one coordinate
per direction and each coordinate `t` satisfies `t < extent`. -/
def validTensorB : List Nat → List Nat → Bool
  | [], [] => true
  | e :: es, t :: ts => decide (t < e) && validTensorB es ts
  | _, _ => false

theorem tensor_to_flat_flat_to_tensor (es : List Nat) (i : Nat)
    (h : i < listProd es) :
    tensor_to_flat es (flat_to_tensor es i) = i := by
  induction es generalizing i with
  | nil =>
      simp only [listProd, Nat.lt_one_iff] at h
      simp [flat_to_tensor, tensor_to_flat, h]
  | cons e es ih =>
      have hP : 0 < listProd es := by
        rcases Nat.eq_zero_or_pos (listProd es) with h0 | h0
        · simp only [listProd, h0, Nat.mul_zero] at h
          omega
        · exact h0
      simp only [flat_to_tensor, tensor_to_flat]
      rw [ih _ (Nat.mod_lt _ hP), Nat.mul_comm]
      exact Nat.div_add_mod i (listProd es)

theorem tensor_to_flat_lt {es ts : List Nat}
    (h : validTensorB es ts = true) :
    tensor_to_flat es ts < listProd es := by
  induction es generalizing ts with
  | nil =>
      cases ts with
      | nil => simp [tensor_to_flat, listProd]
      | cons t ts => simp [validTensorB] at h
  | cons e es ih =>
      cases ts with
      | nil => simp [validTensorB] at h
      | cons t ts =>
          simp only [validTensorB, Bool.and_eq_true, decide_eq_true_eq] at h
          have hr := ih h.2
          have hP : 0 < listProd es := Nat.lt_of_le_of_lt (Nat.zero_le _) hr
          simp only [tensor_to_flat, listProd]
          calc t * listProd es + tensor_to_flat es ts
              < t * listProd es + listProd es := by omega
            _ = (t + 1) * listProd es := by ring
            _ ≤ e * listProd es := Nat.mul_le_mul_right _ h.1

theorem flat_to_tensor_tensor_to_flat (es ts : List Nat)
    (h : validTensorB es ts = true) :
    flat_to_tensor es (tensor_to_flat es ts) = ts := by
  induction es generalizing ts with
  | nil =>
      cases ts with
      | nil => simp [flat_to_tensor]
      | cons t ts => simp [validTensorB] at h
  | cons e es ih =>
      cases ts with
      | nil => simp [validTensorB] at h
      | cons t ts =>
          simp only [validTensorB, Bool.and_eq_true, decide_eq_true_eq] at h
          have hr := tensor_to_flat_lt h.2
          have hP : 0 < listProd es := Nat.lt_of_le_of_lt (Nat.zero_le _) hr
          simp only [tensor_to_flat, flat_to_tensor]
          have hdiv : (t * listProd es + tensor_to_flat es ts) / listProd es = t := by
            rw [Nat.add_comm, Nat.add_mul_div_right _ _ hP,
                Nat.div_eq_of_lt hr]
            omega
          have hmod : (t * listProd es + tensor_to_flat es ts) % listProd es
              = tensor_to_flat es ts := by
            rw [Nat.add_comm, Nat.add_mul_mod_self_right,
                Nat.mod_eq_of_lt hr]
          rw [hdiv, hmod, ih ts h.2]

/-! ## Grid iterator and `jump`

Embedded from `source/geometry/cartesian_grid_iterator.cpp`,
`CartesianGridIteratorBase::jump` (lines 83-109): the current tensor index is
displaced by the increment; every direction is checked against
`[0, n_elems[i])`; on failure the flat index is set to the
`IteratorState::invalid` sentinel, on success to the flattening of the
displaced tensor index; `accessor_->move_to(flat_index)` runs in both cases. -/

/-- The `IteratorState::invalid` sentinel flat-index value (a designated
negative value, distinct from every valid flat index). -/
def IteratorState.invalid : Int := -2

/-- Grid iterator state: the per-direction interval counts of the referenced
grid and the current flat index (`Int`, since the sentinel is negative). -/
structure GridIterator where
  n_elems : List Nat
  flat : Int

/-- The bounds check of `jump`: every displaced coordinate must lie in
`[0, n_elems[i])` (the loop over `UnitElement::active_directions`). -/
def inBoundsTensor (ne : List Nat) (t : List Int) : Bool :=
  (List.zip t ne).all fun p => decide (0 ≤ p.1) && decide (p.1 < (p.2 : Int))

/-- Embeds `accessor_->get_tensor_index()`: the tensor index of the current flat
position. -/
def GridIterator.get_tensor_index (it : GridIterator) : List Nat :=
  flat_to_tensor it.n_elems it.flat.toNat

/-- Embeds `accessor_->move_to(flat_index)`. -/
def GridIterator.move_to (it : GridIterator) (flat : Int) : GridIterator :=
  { it with flat := flat }

/-- Embeds `CartesianGridIteratorBase::jump`: displace the current tensor index by
`increment`; if any coordinate leaves its range, move to the invalid sentinel
and return `false`, else move to the flattened displaced index and return
`true`. -/
def GridIterator.jump (it : GridIterator) (increment : List Int) :
    Bool × GridIterator :=
  let tensor_index : List Int :=
    List.zipWith (fun t d => (t : Int) + d) it.get_tensor_index increment
  if inBoundsTensor it.n_elems tensor_index then
    (true, it.move_to (tensor_to_flat it.n_elems (tensor_index.map Int.toNat) : Nat))
  else
    (false, it.move_to IteratorState.invalid)

/-- C1 (counterexample): on the 1-element one-dimensional grid, at flat index
0, `jump([1])` is out of bounds: it returns `false` but the flat index after
the call is the invalid sentinel, not the flat index before the call, so the
claim "the iterator's flat index after the call equals its flat index before
the call" is false. -/
theorem C1_jump_unchanged_counterexample :
    (GridIterator.jump ⟨[1], 0⟩ [1]).1 = false ∧
      (GridIterator.jump ⟨[1], 0⟩ [1]).2.flat ≠ (GridIterator.mk [1] 0).flat := by
  constructor
  · rfl
  · decide

/-- C1 (amended): starting from a valid tensor position `cur`, `jump`
returns `false` and sets the flat index to the `IteratorState::invalid`
sentinel whenever the displaced tensor index has a coordinate outside
`[0, extent)`; when every coordinate is in range it returns `true` and
positions the iterator at the displaced tensor index. -/
theorem C1_jump_behaviour (ne cur : List Nat) (inc : List Int)
    (hv : validTensorB ne cur = true) :
    let it : GridIterator := ⟨ne, (tensor_to_flat ne cur : Nat)⟩
    let d : List Int := List.zipWith (fun t i => (t : Int) + i) cur inc
    (inBoundsTensor ne d = false →
      it.jump inc = (false, ⟨ne, IteratorState.invalid⟩)) ∧
    (inBoundsTensor ne d = true →
      it.jump inc = (true, ⟨ne, (tensor_to_flat ne (d.map Int.toNat) : Nat)⟩)) := by
  intro it d
  have hcur : it.get_tensor_index = cur := by
    simp only [GridIterator.get_tensor_index, it, Int.toNat_natCast]
    exact flat_to_tensor_tensor_to_flat ne cur hv
  constructor
  · intro hout
    simp only [GridIterator.jump, hcur, GridIterator.move_to, d] at *
    rw [hout]
    simp
  · intro hin
    simp only [GridIterator.jump, hcur, GridIterator.move_to, d] at *
    rw [hin]
    simp

/-- C1 (witness): concrete instantiation of `C1_jump_behaviour` on the
2x3 grid at tensor position (1,1) with increment (0,1): the displaced index
(1,2) is in bounds, so `jump` succeeds and lands on its flattening. -/
theorem C1_jump_behaviour_witness :
    validTensorB [2, 3] [1, 1] = true ∧
      (inBoundsTensor [2, 3]
          (List.zipWith (fun t i => (t : Int) + i) [1, 1] [0, 1]) = true →
        (GridIterator.jump ⟨[2, 3], (tensor_to_flat [2, 3] [1, 1] : Nat)⟩ [0, 1]) =
          (true, ⟨[2, 3],
            (tensor_to_flat [2, 3]
              ((List.zipWith (fun t i => (t : Int) + i) [1, 1] [0, 1]).map Int.toNat) : Nat)⟩)) :=
  ⟨by decide, (C1_jump_behaviour [2, 3] [1, 1] [0, 1] (by decide)).2⟩

/-! ## C3: flat/tensor bijection -/

/-- C3: for every extents tuple, `tensor_to_flat` and `flat_to_tensor` are
mutually inverse on the valid range: flattening the unflattening of a flat
index `i < prod(extents)` gives `i` back, and unflattening the flattening of
a valid tensor index gives the tensor index back. -/
theorem C3_flat_tensor_bijection :
    (∀ (es : List Nat) (i : Nat), i < listProd es →
        tensor_to_flat es (flat_to_tensor es i) = i) ∧
    (∀ (es ts : List Nat), validTensorB es ts = true →
        flat_to_tensor es (tensor_to_flat es ts) = ts) :=
  ⟨tensor_to_flat_flat_to_tensor, flat_to_tensor_tensor_to_flat⟩

/-- C3 (witness): the round trips evaluated on the 2x3 grid at flat index 4
and at tensor index (1,2). -/
theorem C3_flat_tensor_bijection_witness :
    (4 < listProd [2, 3] ∧ tensor_to_flat [2, 3] (flat_to_tensor [2, 3] 4) = 4) ∧
    (validTensorB [2, 3] [1, 2] = true ∧
      flat_to_tensor [2, 3] (tensor_to_flat [2, 3] [1, 2]) = [1, 2]) :=
  ⟨⟨by decide, C3_flat_tensor_bijection.1 [2, 3] 4 (by decide)⟩,
   ⟨by decide, C3_flat_tensor_bijection.2 [2, 3] [1, 2] (by decide)⟩⟩

/-! ## Flag activation tables

Embedded from `source/base/value_types.cpp`. Each layer has a `Flags` bit
type (what the user requests) and the activation tables map one requested bit
to the bitmask of cache bits of the same layer and of flags of the layers
below. A request (a bit set) is resolved by bitwise OR of the table entries
of its bits (`flagClosure`). -/

inductive GridFlag
  | point | weight
  deriving DecidableEq, Fintype

inductive GridCacheFlag
  | point | weight
  deriving DecidableEq, Fintype

inductive DomainFlag
  | point | w_measure | measure | ext_normal | jacobian | inv_jacobian
  | hessian | inv_hessian | boundary_normal
  deriving DecidableEq, Fintype

inductive DomainCacheFlag
  | measure | ext_normal | inv_jacobian | inv_hessian | boundary_normal
  deriving DecidableEq, Fintype

inductive GridFuncFlag
  | D0 | D1 | D2 | D3
  deriving DecidableEq, Fintype

inductive GridFuncCacheFlag
  | D0 | D1 | D2 | D3
  deriving DecidableEq, Fintype

inductive FuncFlag
  | value | gradient | D2
  deriving DecidableEq, Fintype

inductive FuncCacheFlag
  | value | gradient | D2
  deriving DecidableEq, Fintype

/-- Table `grid_element::activate::grid` (value_types.cpp lines 39-43). -/
def grid_activate_grid : GridFlag → GridCacheFlag → Bool
  | .point, c => decide (c = .point)
  | .weight, c => decide (c = .weight)

/-- Table `domain_element::activate::domain` (value_types.cpp lines 88-99). -/
def domain_activate_domain : DomainFlag → DomainCacheFlag → Bool
  | .point, _ => false
  | .w_measure, c => decide (c = .measure)
  | .measure, c => decide (c = .measure)
  | .ext_normal, c => decide (c = .ext_normal)
  | .jacobian, _ => false
  | .inv_jacobian, c => decide (c = .inv_jacobian)
  | .hessian, _ => false
  | .inv_hessian, c => decide (c = .inv_hessian)
  | .boundary_normal, c => decide (c = .boundary_normal) || decide (c = .inv_jacobian)

/-- Table `domain_element::activate::grid_func` (value_types.cpp lines 101-112). -/
def domain_activate_grid_func : DomainFlag → GridFuncFlag → Bool
  | .point, c => decide (c = .D0)
  | .w_measure, c => decide (c = .D1)
  | .measure, c => decide (c = .D1)
  | .ext_normal, c => decide (c = .D1)
  | .jacobian, c => decide (c = .D1)
  | .inv_jacobian, c => decide (c = .D1)
  | .hessian, c => decide (c = .D2)
  | .inv_hessian, c => decide (c = .D2)
  | .boundary_normal, _ => false

/-- Table `domain_element::activate::grid` (value_types.cpp lines 114-125). -/
def domain_activate_grid : DomainFlag → GridFlag → Bool
  | .w_measure, c => decide (c = .weight)
  | _, _ => false

/-- Table `grid_function_element::activate::grid_function`
(value_types.cpp lines 153-159). -/
def grid_function_activate_grid_function : GridFuncFlag → GridFuncCacheFlag → Bool
  | .D0, c => decide (c = .D0)
  | .D1, c => decide (c = .D1)
  | .D2, c => decide (c = .D2)
  | .D3, c => decide (c = .D3)

/-- Table `grid_function_element::activate::grid` (value_types.cpp lines 161-167):
every entry is `grid_element::Flags::none`. -/
def grid_function_activate_grid : GridFuncFlag → GridFlag → Bool
  | _, _ => false

/-- Table `function_element::activate::function` (value_types.cpp lines 189-194). -/
def function_activate_function : FuncFlag → FuncCacheFlag → Bool
  | .value, c => decide (c = .value)
  | .gradient, c => decide (c = .gradient)
  | .D2, c => decide (c = .D2)

/-- Table `function_element::activate::domain` (value_types.cpp lines 196-201):
every entry is `domain_element::Flags::none`. -/
def function_activate_domain : FuncFlag → DomainFlag → Bool
  | _, _ => false

/-- Enumeration of the `DomainFlag` bits (the keys of the domain tables). -/
def domainFlags : List DomainFlag :=
  [.point, .w_measure, .measure, .ext_normal, .jacobian, .inv_jacobian,
   .hessian, .inv_hessian, .boundary_normal]

def gridFlags : List GridFlag := [.point, .weight]

def gridFuncFlags : List GridFuncFlag := [.D0, .D1, .D2, .D3]

def funcFlags : List FuncFlag := [.value, .gradient, .D2]

/-- Resolution of a request: the bitwise OR, over the requested bits, of the
activation-table entries (the union-of-closures evaluation prescribed by the
spec for every layer). -/
def flagClosure {α β : Type} (bits : List α) (table : α → β → Bool)
    (req : α → Bool) : β → Bool :=
  fun c => bits.any fun b => req b && table b c

theorem flagClosure_mono {α β : Type} (bits : List α) (table : α → β → Bool)
    {A B : α → Bool} (hAB : ∀ b, A b = true → B b = true) (c : β)
    (h : flagClosure bits table A c = true) :
    flagClosure bits table B c = true := by
  simp only [flagClosure, List.any_eq_true, Bool.and_eq_true] at h ⊢
  obtain ⟨b, hb, hA, ht⟩ := h
  exact ⟨b, hb, hAB b hA, ht⟩

theorem flagClosure_union {α β : Type} (bits : List α) (table : α → β → Bool)
    (A B : α → Bool) (c : β) :
    flagClosure bits table (fun b => A b || B b) c =
      (flagClosure bits table A c || flagClosure bits table B c) := by
  simp only [flagClosure]
  rw [Bool.eq_iff_iff]
  simp only [List.any_eq_true, Bool.and_eq_true, Bool.or_eq_true]
  constructor
  · rintro ⟨b, hb, hor, ht⟩
    rcases hor with hA | hB
    · exact Or.inl ⟨b, hb, hA, ht⟩
    · exact Or.inr ⟨b, hb, hB, ht⟩
  · rintro (⟨b, hb, hA, ht⟩ | ⟨b, hb, hB, ht⟩)
    · exact ⟨b, hb, Or.inl hA, ht⟩
    · exact ⟨b, hb, Or.inr hB, ht⟩

/-- C4: for every layer, flag resolution is monotone: if request `A` is a
subset of request `B` (as bit sets) then every cache bit and every
lower-layer bit activated by `A` is also activated by `B`; and the closure of
a union of requested bits is the bitwise OR of the closures, so adding a
requested quantity never removes a previously required one. -/
theorem C4_flag_closure_monotonicity :
    (∀ A B : DomainFlag → Bool, (∀ b, A b = true → B b = true) →
      (∀ c, flagClosure domainFlags domain_activate_domain A c = true →
        flagClosure domainFlags domain_activate_domain B c = true) ∧
      (∀ c, flagClosure domainFlags domain_activate_grid_func A c = true →
        flagClosure domainFlags domain_activate_grid_func B c = true) ∧
      (∀ c, flagClosure domainFlags domain_activate_grid A c = true →
        flagClosure domainFlags domain_activate_grid B c = true)) ∧
    (∀ A B : GridFlag → Bool, (∀ b, A b = true → B b = true) →
      ∀ c, flagClosure gridFlags grid_activate_grid A c = true →
        flagClosure gridFlags grid_activate_grid B c = true) ∧
    (∀ A B : GridFuncFlag → Bool, (∀ b, A b = true → B b = true) →
      (∀ c, flagClosure gridFuncFlags grid_function_activate_grid_function A c = true →
        flagClosure gridFuncFlags grid_function_activate_grid_function B c = true) ∧
      (∀ c, flagClosure gridFuncFlags grid_function_activate_grid A c = true →
        flagClosure gridFuncFlags grid_function_activate_grid B c = true)) ∧
    (∀ A B : FuncFlag → Bool, (∀ b, A b = true → B b = true) →
      (∀ c, flagClosure funcFlags function_activate_function A c = true →
        flagClosure funcFlags function_activate_function B c = true) ∧
      (∀ c, flagClosure funcFlags function_activate_domain A c = true →
        flagClosure funcFlags function_activate_domain B c = true)) ∧
    (∀ (A B : DomainFlag → Bool) c,
      flagClosure domainFlags domain_activate_domain (fun b => A b || B b) c =
        (flagClosure domainFlags domain_activate_domain A c ||
          flagClosure domainFlags domain_activate_domain B c)) ∧
    (∀ (A B : DomainFlag → Bool) c,
      flagClosure domainFlags domain_activate_grid_func (fun b => A b || B b) c =
        (flagClosure domainFlags domain_activate_grid_func A c ||
          flagClosure domainFlags domain_activate_grid_func B c)) ∧
    (∀ (A B : DomainFlag → Bool) c,
      flagClosure domainFlags domain_activate_grid (fun b => A b || B b) c =
        (flagClosure domainFlags domain_activate_grid A c ||
          flagClosure domainFlags domain_activate_grid B c)) ∧
    (∀ (A B : GridFlag → Bool) c,
      flagClosure gridFlags grid_activate_grid (fun b => A b || B b) c =
        (flagClosure gridFlags grid_activate_grid A c ||
          flagClosure gridFlags grid_activate_grid B c)) :=
  ⟨fun _ _ h =>
    ⟨fun c => flagClosure_mono _ _ h c, fun c => flagClosure_mono _ _ h c,
      fun c => flagClosure_mono _ _ h c⟩,
   fun _ _ h c => flagClosure_mono _ _ h c,
   fun _ _ h =>
    ⟨fun c => flagClosure_mono _ _ h c, fun c => flagClosure_mono _ _ h c⟩,
   fun _ _ h =>
    ⟨fun c => flagClosure_mono _ _ h c, fun c => flagClosure_mono _ _ h c⟩,
   fun A B c => flagClosure_union _ _ A B c,
   fun A B c => flagClosure_union _ _ A B c,
   fun A B c => flagClosure_union _ _ A B c,
   fun A B c => flagClosure_union _ _ A B c⟩

/-- C4 (witness): with `A` the singleton request `w_measure` and `B` the full
request, `A` is a subset of `B`, `A` activates the `measure` cache bit, and
monotonicity gives that `B` activates it too. -/
theorem C4_flag_closure_monotonicity_witness :
    (∀ b, (fun b => decide (b = DomainFlag.w_measure)) b = true →
      (fun _ : DomainFlag => true) b = true) ∧
    flagClosure domainFlags domain_activate_domain
      (fun b => decide (b = DomainFlag.w_measure)) DomainCacheFlag.measure = true ∧
    flagClosure domainFlags domain_activate_domain
      (fun _ => true) DomainCacheFlag.measure = true :=
  ⟨by decide, by decide,
    (C4_flag_closure_monotonicity.1 (fun b => decide (b = DomainFlag.w_measure))
      (fun _ => true) (by decide)).1 DomainCacheFlag.measure (by decide)⟩

/-- C5: any domain-layer request containing the `w_measure` bit — whatever
else it contains — activates the `measure` bit in the domain cache, the `D1`
(first-derivative) flag at the grid-function layer, and the `weight` flag at
the grid layer. -/
theorem C5_w_measure_resolution (A : DomainFlag → Bool)
    (h : A DomainFlag.w_measure = true) :
    flagClosure domainFlags domain_activate_domain A DomainCacheFlag.measure = true ∧
    flagClosure domainFlags domain_activate_grid_func A GridFuncFlag.D1 = true ∧
    flagClosure domainFlags domain_activate_grid A GridFlag.weight = true := by
  refine ⟨?_, ?_, ?_⟩ <;>
    · simp only [flagClosure, List.any_eq_true, Bool.and_eq_true]
      exact ⟨DomainFlag.w_measure, by decide, h, by decide⟩

/-- C5 (witness): the full domain request contains `w_measure`, and its
resolution activates `measure`, `D1` and `weight`. -/
theorem C5_w_measure_resolution_witness :
    (fun _ : DomainFlag => true) DomainFlag.w_measure = true ∧
    (flagClosure domainFlags domain_activate_domain
        (fun _ => true) DomainCacheFlag.measure = true ∧
      flagClosure domainFlags domain_activate_grid_func
        (fun _ => true) GridFuncFlag.D1 = true ∧
      flagClosure domainFlags domain_activate_grid
        (fun _ => true) GridFlag.weight = true) :=
  ⟨rfl, C5_w_measure_resolution (fun _ => true) rfl⟩

/-! ## Element cache copy semantics

Embedded from `source/basis_functions/space_element.cpp`. An accessor holds a
`shared_ptr` to its `LocalCache`; the heap of cache instances is modelled as
a list of cache contents, a `shared_ptr` as an optional index into that
heap. `copy_from` with the `deep` policy allocates a fresh instance holding a
copy of the source's contents (`new LocalCache(*elem.local_cache_)`), with
the `shallow` policy it copies the pointer; the whole body is guarded by
`this != &elem`. -/

inductive CopyPolicy
  | deep | shallow
  deriving DecidableEq

/-- Contents of one `LocalCache` instance: a table from topology key to the
stored value; writing prepends, reading takes the first hit. -/
def cacheRead (c : List (Nat × Nat)) (k : Nat) : Option Nat :=
  (c.find? (fun p => p.1 == k)).map (fun p => p.2)

def cacheWrite (c : List (Nat × Nat)) (k v : Nat) : List (Nat × Nat) :=
  (k, v) :: c

/-- Accessor state: grid position and the `shared_ptr` to its local cache
(`none` models a null pointer). -/
structure SpaceElem where
  flat : Nat
  cacheRef : Option Nat
  deriving DecidableEq

/-- The elements and the heap of `LocalCache` instances they point into. -/
structure World where
  elems : List SpaceElem
  caches : List (List (Nat × Nat))
  deriving DecidableEq

/-- Embeds `SpaceElement::copy_from(elem, copy_policy)` (space_element.cpp lines
53-79): no-op on self copy; deep policy asserts the source cache is non-null
and allocates a fresh copy of it; shallow policy shares the pointer; the base
copy transfers the grid position. -/
def copy_from (w : World) (dst src : Nat) (policy : CopyPolicy) :
    Except String World :=
  if dst = src then .ok w
  else
    match w.elems.getD src ⟨0, none⟩, policy with
    | ⟨_, none⟩, .deep => .error "Assert: elem.local_cache_ != nullptr"
    | ⟨f, some r⟩, .deep =>
        .ok { elems := (w.elems.set dst ⟨f, some w.caches.length⟩),
              caches := (w.caches ++ [w.caches.getD r []]) }
    | ⟨f, cr⟩, .shallow =>
        .ok { elems := (w.elems.set dst ⟨f, cr⟩), caches := w.caches }

/-- Embeds `SpaceElement::shallow_copy_from` (space_element.cpp lines 93-99). -/
def shallow_copy_from (w : World) (dst src : Nat) : Except String World :=
  copy_from w dst src .shallow

/-- Embeds `SpaceElement::deep_copy_from` (space_element.cpp lines 83-89). -/
def deep_copy_from (w : World) (dst src : Nat) : Except String World :=
  copy_from w dst src .deep

/-- Embeds `SpaceElement::operator=` (space_element.cpp lines 103-110): delegates to
`shallow_copy_from`. -/
def space_elem_assign (w : World) (dst src : Nat) : Except String World :=
  shallow_copy_from w dst src

/-- The `SpaceElement` copy constructor (space_element.cpp lines 31-49):
creates a new accessor; when the source cache is non-null, the shallow policy
shares the instance and the deep policy allocates a fresh copy of it. The
new element id is returned with the new world. -/
def spaceElemCopy (w : World) (src : Nat) (policy : CopyPolicy) : World × Nat :=
  match w.elems.getD src ⟨0, none⟩, policy with
  | ⟨f, none⟩, _ =>
      ({ elems := (w.elems ++ [⟨f, none⟩]), caches := w.caches },
       w.elems.length)
  | ⟨f, some r⟩, .shallow =>
      ({ elems := (w.elems ++ [⟨f, some r⟩]), caches := w.caches },
       w.elems.length)
  | ⟨f, some r⟩, .deep =>
      ({ elems := (w.elems ++ [⟨f, some w.caches.length⟩]),
         caches := (w.caches ++ [w.caches.getD r []]) },
       w.elems.length)

/-- The default copy policy of the accessor copy constructor is `deep`
(bspline_element.h lines 96-97). -/
def copyCtorDefaultPolicy : CopyPolicy := .deep

/-- Refilling an element's cache at a topology key: a write through the
element's cache pointer (the effect of a `fill_cache` on the instance the
element references). -/
def refill (w : World) (e k v : Nat) : World :=
  match (w.elems.getD e ⟨0, none⟩).cacheRef with
  | none => w
  | some r =>
      { w with caches := w.caches.set r (cacheWrite (w.caches.getD r []) k v) }

/-- Reading an element's cache at a topology key through its pointer. -/
def observe (w : World) (e k : Nat) : Option Nat :=
  match (w.elems.getD e ⟨0, none⟩).cacheRef with
  | none => none
  | some r => cacheRead (w.caches.getD r []) k

theorem listGetD_set_self {α : Type} (l : List α) (i : Nat) (x d : α)
    (h : i < l.length) : (l.set i x).getD i d = x := by
  rw [List.getD_eq_getElem?_getD, List.getElem?_set_eq_of_lt x h, Option.getD_some]

theorem listGetD_set_ne {α : Type} (l : List α) {i j : Nat} (x d : α)
    (h : i ≠ j) : (l.set i x).getD j d = l.getD j d := by
  rw [List.getD_eq_getElem?_getD, List.getElem?_set_ne h,
    ← List.getD_eq_getElem?_getD]

theorem listGetD_append_last {α : Type} (l : List α) (x d : α) :
    (l ++ [x]).getD l.length d = x := by
  rw [List.getD_append_right _ _ _ _ (Nat.le_refl _), Nat.sub_self,
    List.getD_cons_zero]

theorem cacheRead_cacheWrite_same (c : List (Nat × Nat)) (k v : Nat) :
    cacheRead (cacheWrite c k v) k = some v := by
  simp [cacheRead, cacheWrite, List.find?]

/-- C6: for an accessor `E` (element `eId`) whose cache pointer references
instance `r` of the heap: the shallow copy references the identical instance
`r`, so a refill of `E`'s cache at a topology key is observed by the shallow
copy when re-read at that key; the deep copy references a fresh instance
distinct from `r` whose contents equal `E`'s at copy time, and a refill of
`E`'s cache leaves what the deep copy observes unchanged. -/
theorem C6_deep_shallow_copy (w : World) (eId r : Nat)
    (heId : eId < w.elems.length)
    (hr : (w.elems.getD eId ⟨0, none⟩).cacheRef = some r)
    (hrlen : r < w.caches.length) :
    (((spaceElemCopy w eId .shallow).1.elems.getD
        (spaceElemCopy w eId .shallow).2 ⟨0, none⟩).cacheRef = some r) ∧
    (∀ k v, observe (refill (spaceElemCopy w eId .shallow).1 eId k v)
        (spaceElemCopy w eId .shallow).2 k = some v) ∧
    (((spaceElemCopy w eId .deep).1.elems.getD
        (spaceElemCopy w eId .deep).2 ⟨0, none⟩).cacheRef ≠ some r) ∧
    (∀ k, observe (spaceElemCopy w eId .deep).1
        (spaceElemCopy w eId .deep).2 k = observe w eId k) ∧
    (∀ k v, observe (refill (spaceElemCopy w eId .deep).1 eId k v)
        (spaceElemCopy w eId .deep).2 k =
      observe (spaceElemCopy w eId .deep).1 (spaceElemCopy w eId .deep).2 k) := by
  rcases hE : w.elems.getD eId ⟨0, none⟩ with ⟨f, cr⟩
  rw [hE] at hr
  dsimp only at hr
  subst hr
  have hs : spaceElemCopy w eId CopyPolicy.shallow
      = ({ elems := (w.elems ++ [⟨f, some r⟩]), caches := w.caches },
         w.elems.length) := by
    unfold spaceElemCopy
    rw [hE]
  have hd : spaceElemCopy w eId CopyPolicy.deep
      = ({ elems := (w.elems ++ [⟨f, some w.caches.length⟩]),
           caches := (w.caches ++ [w.caches.getD r []]) },
         w.elems.length) := by
    unfold spaceElemCopy
    rw [hE]
  refine ⟨?_, ?_, ?_, ?_, ?_⟩
  · rw [hs, listGetD_append_last]
  · intro k v
    rw [hs]
    simp only [refill, List.getD_append _ _ _ _ heId, hE, observe,
      listGetD_append_last]
    rw [listGetD_set_self _ _ _ _ hrlen]
    exact cacheRead_cacheWrite_same _ k v
  · rw [hd, listGetD_append_last]
    simp only [Option.some_inj, ne_eq]
    omega
  · intro k
    rw [hd]
    simp only [observe, listGetD_append_last, hE]
  · intro k v
    rw [hd]
    have hne : r ≠ w.caches.length := Nat.ne_of_lt hrlen
    simp only [refill, observe, List.getD_append _ _ _ _ heId, hE,
      listGetD_append_last]
    rw [listGetD_set_ne _ _ _ hne, listGetD_append_last]

/-- C6 (witness): instantiation on the one-element world whose single
accessor points at cache instance 0 holding the entry (5, 7). -/
theorem C6_deep_shallow_copy_witness :
    (0 < (World.mk [⟨0, some 0⟩] [[(5, 7)]]).elems.length ∧
     ((World.mk [⟨0, some 0⟩] [[(5, 7)]]).elems.getD 0 ⟨0, none⟩).cacheRef = some 0 ∧
     0 < (World.mk [⟨0, some 0⟩] [[(5, 7)]]).caches.length) ∧
    ((((spaceElemCopy (World.mk [⟨0, some 0⟩] [[(5, 7)]]) 0 .shallow).1.elems.getD
        (spaceElemCopy (World.mk [⟨0, some 0⟩] [[(5, 7)]]) 0 .shallow).2 ⟨0, none⟩).cacheRef
        = some 0) ∧
      (∀ k v, observe (refill (spaceElemCopy (World.mk [⟨0, some 0⟩] [[(5, 7)]]) 0 .shallow).1 0 k v)
          (spaceElemCopy (World.mk [⟨0, some 0⟩] [[(5, 7)]]) 0 .shallow).2 k = some v) ∧
      (((spaceElemCopy (World.mk [⟨0, some 0⟩] [[(5, 7)]]) 0 .deep).1.elems.getD
          (spaceElemCopy (World.mk [⟨0, some 0⟩] [[(5, 7)]]) 0 .deep).2 ⟨0, none⟩).cacheRef
          ≠ some 0) ∧
      (∀ k, observe (spaceElemCopy (World.mk [⟨0, some 0⟩] [[(5, 7)]]) 0 .deep).1
          (spaceElemCopy (World.mk [⟨0, some 0⟩] [[(5, 7)]]) 0 .deep).2 k
          = observe (World.mk [⟨0, some 0⟩] [[(5, 7)]]) 0 k) ∧
      (∀ k v, observe (refill (spaceElemCopy (World.mk [⟨0, some 0⟩] [[(5, 7)]]) 0 .deep).1 0 k v)
          (spaceElemCopy (World.mk [⟨0, some 0⟩] [[(5, 7)]]) 0 .deep).2 k =
        observe (spaceElemCopy (World.mk [⟨0, some 0⟩] [[(5, 7)]]) 0 .deep).1
          (spaceElemCopy (World.mk [⟨0, some 0⟩] [[(5, 7)]]) 0 .deep).2 k)) :=
  ⟨⟨by decide, by decide, by decide⟩,
    C6_deep_shallow_copy (World.mk [⟨0, some 0⟩] [[(5, 7)]]) 0 0
      (by decide) (by decide) (by decide)⟩

/-- C10: copy-assignment `A = B` delegates to the shallow copy: afterwards
the destination references the source's cache instance and no cache storage
is duplicated; the copy constructor's default policy is `deep` and with a
non-null source cache it does allocate a fresh instance; `copy_from` on the
element itself (any policy) leaves the world unchanged. -/
theorem C10_assign_shallow (w : World) (dst src r : Nat)
    (hne : dst ≠ src)
    (hsrc : (w.elems.getD src ⟨0, none⟩).cacheRef = some r) :
    space_elem_assign w dst src =
      Except.ok (World.mk
        (w.elems.set dst ⟨(w.elems.getD src ⟨0, none⟩).flat, some r⟩)
        w.caches) ∧
    copyCtorDefaultPolicy = CopyPolicy.deep ∧
    (spaceElemCopy w src copyCtorDefaultPolicy).1.caches
      = w.caches ++ [w.caches.getD r []] ∧
    (∀ e p, copy_from w e e p = Except.ok w) := by
  rcases hE : w.elems.getD src ⟨0, none⟩ with ⟨f, cr⟩
  rw [hE] at hsrc
  dsimp only at hsrc
  subst hsrc
  refine ⟨?_, rfl, ?_, ?_⟩
  · unfold space_elem_assign shallow_copy_from copy_from
    rw [if_neg hne, hE]
  · unfold copyCtorDefaultPolicy spaceElemCopy
    rw [hE]
  · intro e p
    unfold copy_from
    rw [if_pos rfl]

/-- C10 (witness): instantiation on a two-element world where element 1 owns
cache instance 0; the assignment of element 1 onto element 0 shares that
instance and duplicates no storage. -/
theorem C10_assign_shallow_witness :
    ((0 : Nat) ≠ 1 ∧
      ((World.mk [⟨0, none⟩, ⟨3, some 0⟩] [[(5, 7)]]).elems.getD 1 ⟨0, none⟩).cacheRef
        = some 0) ∧
    (space_elem_assign (World.mk [⟨0, none⟩, ⟨3, some 0⟩] [[(5, 7)]]) 0 1 =
      Except.ok (World.mk
        ((World.mk [⟨0, none⟩, ⟨3, some 0⟩] [[(5, 7)]]).elems.set 0
          ⟨((World.mk [⟨0, none⟩, ⟨3, some 0⟩] [[(5, 7)]]).elems.getD 1 ⟨0, none⟩).flat,
            some 0⟩)
        (World.mk [⟨0, none⟩, ⟨3, some 0⟩] [[(5, 7)]]).caches) ∧
      copyCtorDefaultPolicy = CopyPolicy.deep ∧
      (spaceElemCopy (World.mk [⟨0, none⟩, ⟨3, some 0⟩] [[(5, 7)]]) 1
          copyCtorDefaultPolicy).1.caches
        = (World.mk [⟨0, none⟩, ⟨3, some 0⟩] [[(5, 7)]]).caches ++
            [(World.mk [⟨0, none⟩, ⟨3, some 0⟩] [[(5, 7)]]).caches.getD 0 []] ∧
      (∀ e p, copy_from (World.mk [⟨0, none⟩, ⟨3, some 0⟩] [[(5, 7)]]) e e p =
        Except.ok (World.mk [⟨0, none⟩, ⟨3, some 0⟩] [[(5, 7)]]))) :=
  ⟨⟨by decide, by decide⟩,
    C10_assign_shallow (World.mk [⟨0, none⟩, ⟨3, some 0⟩] [[(5, 7)]]) 0 1 0
      (by decide) (by decide)⟩

/-! ## Iterator constructibility

Embedded from `include/igatools/geometry/grid_forward_iterator.h` (lines
174-203) and `include/igatools/basis_functions/bspline_element.h` (line 79):
the constructor declaration surface of `GridForwardIterator` and of the
accessor type `BSplineElement`. -/

inductive CtorAvailability
  | defaulted | userProvided | deleted
  deriving DecidableEq

inductive IteratorCtor
  | defaultCtor | fromGridFlatIndex | fromGridTensorIndex | copyCtor | moveCtor
  deriving DecidableEq

/-- Constructor declarations of `GridForwardIterator`: the default
constructor is declared `GridForwardIterator() = default;`
(grid_forward_iterator.h line 179) — publicly defaulted, not deleted —
although the comment above it says it is "Not allowed to be used" and the
class documentation says the iterator "is not default constructible". -/
def gridForwardIterator_ctor : IteratorCtor → CtorAvailability
  | .defaultCtor => .defaulted
  | .fromGridFlatIndex => .userProvided
  | .fromGridTensorIndex => .userProvided
  | .copyCtor => .defaulted
  | .moveCtor => .defaulted

/-- The accessor type `BSplineElement` declares `BSplineElement() = default;`
(bspline_element.h line 79), so the accessor member of the iterator is
default-constructible. -/
def bsplineElement_default_ctor : CtorAvailability := .defaulted

/-- A class whose defaulted default constructor is not deleted and whose
members are default-constructible is default-constructible. -/
def default_constructible (ctor : CtorAvailability) (membersDC : Bool) : Bool :=
  decide (ctor ≠ .deleted) && membersDC

/-- The observable state of a default-constructed iterator: the accessor's
`shared_ptr` to the grid container is value-initialized to null, so the
iterator references no grid. -/
structure IteratorValue where
  gridRef : Option Nat
  flat : Int

/-- The value produced by default construction of the iterator. -/
def gridForwardIterator_defaultValue : IteratorValue := ⟨none, 0⟩

/-- C2 (code evaluated at the failing input): `GridForwardIterator` with the
`BSplineElement` accessor is default-constructible — its defaulted default
constructor is not deleted and the accessor's is defaulted too — and the
default-constructed iterator references no grid. This contradicts the claim
(and the header's own documentation) that no iterator exists that was not
constructed from a grid. -/
theorem C2_default_ctor_contradiction :
    default_constructible (gridForwardIterator_ctor .defaultCtor)
      (decide (bsplineElement_default_ctor ≠ .deleted)) = true ∧
    gridForwardIterator_defaultValue.gridRef = none := by
  constructor
  · rfl
  · rfl

/-! ## ElementCache fail-fast

Modelled from the spec: the typed cache accessors (the `ValuesCache` class
and `cacheutils`, referenced from space_element.cpp but not under the
provided sources) are modelled from the spec's words: each entry carries the
requested `CacheFlags` bit and a filled status; `get` fails unless the bit
was both requested (at `init`) and filled; `fill` fails if the bit was not
requested; a fresh `init` clears every filled status. -/

structure ValuesCache where
  requestedF : Nat → Nat → Bool
  filledF : Nat → Nat → Bool
  valueF : Nat → Nat → Nat

/-- Operation `init`: record the requested flags per topology, clear all filled
statuses (storage zero-allocated, not readable). -/
def cache_init (req : Nat → Nat → Bool) : ValuesCache :=
  ⟨req, fun _ _ => false, fun _ _ => 0⟩

/-- Operation `fill(topology, flag, value)`: fails if the flag was not requested at
init; otherwise stores the value and marks the entry filled. -/
def cache_fill (c : ValuesCache) (t f v : Nat) : Except String ValuesCache :=
  if c.requestedF t f then
    .ok ⟨c.requestedF,
      fun t2 f2 => if t2 = t ∧ f2 = f then true else c.filledF t2 f2,
      fun t2 f2 => if t2 = t ∧ f2 = f then v else c.valueF t2 f2⟩
  else .error "fill of a flag not requested at init"

/-- Operation `get(topology, flag)`: the only read path; fails unless the flag was
both requested and filled. -/
def cache_get (c : ValuesCache) (t f : Nat) : Except String Nat :=
  if c.requestedF t f then
    if c.filledF t f then .ok (c.valueF t f)
    else .error "flag requested but not filled"
  else .error "flag not requested"

/-- C7: a `get` of an entry whose flag was requested but not yet filled is a
contract violation; a `get` of a flag never requested is one too, whatever
else is filled in the same cache; a read succeeds only when the flag was
requested and filled and then returns exactly the stored value; after `fill`
the filled value is read back; after a fresh `init` every read fails (no
zero-initialized data escapes). -/
theorem C7_cache_fail_fast (c : ValuesCache) (t f : Nat) :
    (c.requestedF t f = true → c.filledF t f = false →
      cache_get c t f = .error "flag requested but not filled") ∧
    (c.requestedF t f = false →
      cache_get c t f = .error "flag not requested") ∧
    (∀ v, cache_get c t f = .ok v →
      c.requestedF t f = true ∧ c.filledF t f = true ∧ v = c.valueF t f) ∧
    (∀ v c2, cache_fill c t f v = .ok c2 → cache_get c2 t f = .ok v) ∧
    (∀ req, ∃ msg, cache_get (cache_init req) t f = .error msg) := by
  refine ⟨?_, ?_, ?_, ?_, ?_⟩
  · intro hreq hfill
    simp [cache_get, hreq, hfill]
  · intro hreq
    simp [cache_get, hreq]
  · intro v hok
    by_cases hreq : c.requestedF t f
    · by_cases hfill : c.filledF t f
      · simp only [cache_get, hreq, if_true, hfill, Except.ok.injEq] at hok
        exact ⟨hreq, hfill, hok.symm⟩
      · simp [cache_get, hreq, hfill] at hok
    · simp [cache_get, hreq] at hok
  · intro v c2 hok
    by_cases hreq : c.requestedF t f
    · simp only [cache_fill, hreq, if_true] at hok
      cases hok
      simp [cache_get, hreq]
    · simp [cache_fill, hreq] at hok
  · intro req
    by_cases hreq : req t f
    · exact ⟨"flag requested but not filled", by simp [cache_get, cache_init, hreq]⟩
    · exact ⟨"flag not requested", by simp [cache_get, cache_init, hreq]⟩

/-- C7 (witness): a cache where flag 1 of topology 0 is requested and
filled but flag 0 is requested and not filled: reading flag 0 fails even
though another entry of the same cache is filled; and on a cache where flag
0 was never requested, reading it fails too. -/
theorem C7_cache_fail_fast_witness :
    ((ValuesCache.mk (fun t f => decide (t = 0 ∧ f ≤ 1))
        (fun t f => decide (t = 0 ∧ f = 1)) (fun _ _ => 9)).requestedF 0 0 = true ∧
      (ValuesCache.mk (fun t f => decide (t = 0 ∧ f ≤ 1))
        (fun t f => decide (t = 0 ∧ f = 1)) (fun _ _ => 9)).filledF 0 0 = false ∧
      (ValuesCache.mk (fun t f => decide (t = 0 ∧ f ≤ 1))
        (fun t f => decide (t = 0 ∧ f = 1)) (fun _ _ => 9)).filledF 0 1 = true) ∧
    cache_get (ValuesCache.mk (fun t f => decide (t = 0 ∧ f ≤ 1))
        (fun t f => decide (t = 0 ∧ f = 1)) (fun _ _ => 9)) 0 0
      = .error "flag requested but not filled" ∧
    ((ValuesCache.mk (fun _ _ => false) (fun _ _ => true) (fun _ _ => 9)).requestedF 0 0
        = false ∧
      cache_get (ValuesCache.mk (fun _ _ => false) (fun _ _ => true) (fun _ _ => 9)) 0 0
        = .error "flag not requested") :=
  ⟨⟨by decide, by decide, by decide⟩,
    (C7_cache_fail_fast (ValuesCache.mk (fun t f => decide (t = 0 ∧ f ≤ 1))
        (fun t f => decide (t = 0 ∧ f = 1)) (fun _ _ => 9)) 0 0).1
      (by decide) (by decide),
    by decide,
    (C7_cache_fail_fast (ValuesCache.mk (fun _ _ => false)
        (fun _ _ => true) (fun _ _ => 9)) 0 0).2.1 (by decide)⟩

/-! ## Handler reset family

Embedded from `source/basis_functions/reference_element_handler.cpp` (lines
97-123): `reset` gathers the ids of the elements carrying the `active`
property (a `std::set<int>`, iterated in ascending order into a vector) and
delegates to the pure virtual `reset_selected_elements`; `reset_one_element`
delegates with the singleton vector. -/

structure RefGrid where
  numElems : Nat
  activeProp : Nat → Bool

/-- Embeds `CartesianGrid::get_elements_id_same_property(ElementProperty::active)`:
the ascending list of flat element ids carrying the property. -/
def get_elements_id_same_property (g : RefGrid) : List Nat :=
  (List.range g.numElems).filter g.activeProp

/-- Embeds `ReferenceElementHandler::reset(flag, eval_pts)`: delegates to
`reset_selected_elements` on all active element ids. `resetSel` stands for
the pure virtual `reset_selected_elements` of the concrete handler. -/
def handler_reset {Flags Pts State : Type}
    (resetSel : Flags → Pts → List Nat → State → State)
    (g : RefGrid) (flag : Flags) (pts : Pts) (st : State) : State :=
  resetSel flag pts (get_elements_id_same_property g) st

/-- Embeds `ReferenceElementHandler::reset_one_element(flag, eval_points,
elem_flat_id)`: delegates to `reset_selected_elements` on the singleton
vector `vector<int>(1, elem_flat_id)`. -/
def handler_reset_one_element {Flags Pts State : Type}
    (resetSel : Flags → Pts → List Nat → State → State)
    (flag : Flags) (pts : Pts) (elem_flat_id : Nat) (st : State) : State :=
  resetSel flag pts [elem_flat_id] st

/-- C9: `reset_one_element(flag, pts, id)` performs exactly the state update
of `reset_selected_elements(flag, pts, [id])`, and `reset(flag, pts)`
performs exactly the state update of `reset_selected_elements` on the list
of all element ids carrying the `active` property; both pass the flag and
evaluation-point configuration through unchanged, whatever the concrete
handler's `reset_selected_elements` does with them. -/
theorem C9_reset_delegation {Flags Pts State : Type}
    (resetSel : Flags → Pts → List Nat → State → State)
    (g : RefGrid) (flag : Flags) (pts : Pts) (st : State)
    (elem_flat_id : Nat) :
    handler_reset_one_element resetSel flag pts elem_flat_id st
      = resetSel flag pts [elem_flat_id] st ∧
    handler_reset resetSel g flag pts st
      = resetSel flag pts (get_elements_id_same_property g) st ∧
    get_elements_id_same_property g
      = (List.range g.numElems).filter g.activeProp :=
  ⟨rfl, rfl, rfl⟩

/-! ## Property-filtered iterator sweep

Modelled from the spec: the accessor's `operator++` body (the
property-skipping advance in the grid element accessor, which the
delegations in cartesian_grid_iterator.cpp lines 129-136 and
grid_forward_iterator.cpp lines 74-82 call into) is not under the provided
sources; it is modelled from the spec's words: `operator++` advances to the
next flat index carrying the property, transparently skipping elements
without it, and reaches the past-the-end sentinel when none remains;
`begin()` is the first element carrying the property and `end()` is the
sentinel. The sweep loop is bounded by the element count, which the advance
never exceeds. -/

structure PropGrid where
  numElems : Nat
  prop : Nat → Bool

/-- One `operator++` step from flat index `i`: the smallest flat index
greater than `i` that carries the property, or `none` (past the end). -/
def nextActive (g : PropGrid) (i : Nat) : Option Nat :=
  ((List.range g.numElems).filter (fun j => decide (i < j) && g.prop j)).head?

/-- Embeds `begin()`: the smallest flat index carrying the property, or `none`. -/
def beginActive (g : PropGrid) : Option Nat :=
  ((List.range g.numElems).filter g.prop).head?

/-- The sweep loop: visit the current element and advance until the
past-the-end sentinel; the fuel bounds the number of iterations (the sweep
never needs more than one step per grid element). -/
def sweepLoop (g : PropGrid) : Nat → Option Nat → List Nat
  | _, none => []
  | 0, some _ => []
  | fuel + 1, some i => i :: sweepLoop g fuel (nextActive g i)

/-- The full sweep from `begin()` to `end()` by repeated `operator++`. -/
def sweep (g : PropGrid) : List Nat :=
  sweepLoop g g.numElems (beginActive g)

theorem nextActive_gt {g : PropGrid} {i j : Nat}
    (h : nextActive g i = some j) :
    i < j ∧ j < g.numElems ∧ g.prop j = true := by
  unfold nextActive at h
  have hmem := List.mem_of_mem_head? h
  rw [List.mem_filter, List.mem_range] at hmem
  obtain ⟨hr, hp⟩ := hmem
  simp only [Bool.and_eq_true, decide_eq_true_eq] at hp
  exact ⟨hp.1, hr, hp.2⟩

theorem filter_range_gt (p : Nat → Bool) (n i : Nat) :
    (List.range n).filter (fun j => decide (i < j) && p j)
      = (List.range' (i + 1) (n - (i + 1))).filter p := by
  rcases le_or_lt n (i + 1) with h | h
  · have h1 : n - (i + 1) = 0 := by omega
    rw [h1, List.range'_zero, List.filter_nil]
    rw [List.filter_eq_nil_iff]
    intro a ha
    rw [List.mem_range] at ha
    simp only [Bool.and_eq_true, decide_eq_true_eq, not_and]
    intro hia
    omega
  · have hn : n = (i + 1) + (n - (i + 1)) := by omega
    conv_lhs => rw [hn, List.range_add, List.filter_append]
    have h1 : (List.range (i + 1)).filter (fun j => decide (i < j) && p j)
        = [] := by
      rw [List.filter_eq_nil_iff]
      intro a ha
      rw [List.mem_range] at ha
      simp only [Bool.and_eq_true, decide_eq_true_eq, not_and]
      intro hia
      omega
    rw [h1, List.nil_append, List.filter_map]
    rw [List.range'_eq_map_range, List.filter_map]
    congr 1
    apply List.filter_congr
    intro a _
    simp only [Function.comp_apply]
    have hlt : decide (i < i + 1 + a) = true := decide_eq_true (by omega)
    rw [hlt, Bool.true_and]

theorem filter_decompose_head (p : Nat → Bool) :
    ∀ (m s j : Nat), ((List.range' s m).filter p).head? = some j →
      (List.range' s m).filter p
        = j :: (List.range' (j + 1) (s + m - (j + 1))).filter p := by
  intro m
  induction m with
  | zero =>
      intro s j h
      rw [List.range'_zero, List.filter_nil] at h
      simp at h
  | succ m ih =>
      intro s j h
      rw [List.range'_succ, List.filter_cons] at h ⊢
      by_cases hp : p s = true
      · rw [if_pos hp] at h ⊢
        simp only [List.head?_cons, Option.some_inj] at h
        subst h
        have harith : s + (m + 1) - (s + 1) = m := by omega
        rw [harith]
      · rw [if_neg hp] at h ⊢
        have hrec := ih (s + 1) j h
        rw [hrec]
        have harith : s + 1 + m - (j + 1) = s + (m + 1) - (j + 1) := by omega
        rw [harith]

theorem sweepLoop_eq (g : PropGrid) :
    ∀ (fuel i : Nat), g.numElems - i ≤ fuel → i < g.numElems →
      g.prop i = true →
      sweepLoop g fuel (some i)
        = i :: (List.range' (i + 1) (g.numElems - (i + 1))).filter g.prop := by
  intro fuel
  induction fuel with
  | zero =>
      intro i hf hi _
      omega
  | succ fuel ih =>
      intro i hf hi hp
      simp only [sweepLoop]
      cases hn : nextActive g i with
      | none =>
          simp only [sweepLoop]
          have hemp : (List.range' (i + 1) (g.numElems - (i + 1))).filter g.prop
              = [] := by
            rw [← filter_range_gt]
            exact List.head?_eq_none_iff.1 (by simpa [nextActive] using hn)
          rw [hemp]
      | some j =>
          obtain ⟨hij, hjn, hpj⟩ := nextActive_gt hn
          rw [ih j (by omega) hjn hpj]
          have hhead : ((List.range' (i + 1) (g.numElems - (i + 1))).filter
              g.prop).head? = some j := by
            rw [← filter_range_gt]
            simpa [nextActive] using hn
          have hdec := filter_decompose_head g.prop (g.numElems - (i + 1))
            (i + 1) j hhead
          have harith : i + 1 + (g.numElems - (i + 1)) - (j + 1)
              = g.numElems - (j + 1) := by omega
          rw [hdec, harith]

/-- C8: the sweep from `begin()` by repeated `operator++` until the
past-the-end sentinel visits exactly the elements carrying the property, in
strictly increasing flat-index order (hence non-decreasing), each exactly
once, never stopping on an element lacking the property, and its length is
the number `N` of elements carrying the property. -/
theorem C8_iterator_sweep (g : PropGrid) :
    sweep g = (List.range g.numElems).filter g.prop ∧
    (sweep g).Nodup ∧
    List.Pairwise (· < ·) (sweep g) ∧
    (∀ i ∈ sweep g, g.prop i = true) ∧
    (sweep g).length = ((List.range g.numElems).filter g.prop).length := by
  have hchar : sweep g = (List.range g.numElems).filter g.prop := by
    unfold sweep
    cases hb : beginActive g with
    | none =>
        have hemp : (List.range g.numElems).filter g.prop = [] :=
          List.head?_eq_none_iff.1 (by simpa [beginActive] using hb)
        rw [hemp]
        simp [sweepLoop]
    | some b =>
        have hb2 : ((List.range g.numElems).filter g.prop).head? = some b := by
          simpa [beginActive] using hb
        have hmem := List.mem_of_mem_head? hb2
        rw [List.mem_filter, List.mem_range] at hmem
        obtain ⟨hbn, hbp⟩ := hmem
        rw [sweepLoop_eq g g.numElems b (by omega) hbn hbp]
        have hb3 : ((List.range' 0 g.numElems).filter g.prop).head? = some b := by
          rw [← List.range_eq_range']
          exact hb2
        have hdec := filter_decompose_head g.prop g.numElems 0 b hb3
        rw [List.range_eq_range' g.numElems, hdec]
        have harith : 0 + g.numElems - (b + 1) = g.numElems - (b + 1) := by
          omega
        rw [harith]
  refine ⟨hchar, ?_, ?_, ?_, ?_⟩
  · rw [hchar]
    exact List.Nodup.filter _ (List.nodup_range _)
  · rw [hchar]
    exact List.Pairwise.sublist (List.filter_sublist _)
      (List.sorted_lt_range _)
  · intro i hi
    rw [hchar] at hi
    exact (List.mem_filter.1 hi).2
  · rw [hchar]

/-- C8 (witness): on the 5-element grid whose even elements carry the
property, the sweep is (0, 2, 4): it has the three property-carrying
elements in increasing order, and element 2 — visited by the sweep — indeed
carries the property (instantiating the per-element conjunct of the sweep
theorem at the concrete member 2). -/
theorem C8_iterator_sweep_witness :
    sweep (PropGrid.mk 5 (fun n => n % 2 == 0)) = [0, 2, 4] ∧
    (2 ∈ sweep (PropGrid.mk 5 (fun n => n % 2 == 0)) ∧
      (PropGrid.mk 5 (fun n => n % 2 == 0)).prop 2 = true) :=
  ⟨by decide,
    ⟨by decide,
      (C8_iterator_sweep (PropGrid.mk 5 (fun n => n % 2 == 0))).2.2.2.1 2
        (by decide)⟩⟩

end Igatools
